import Mathlib

/-!
Shallow embedding of the URL-shortening service in `backend/app.py`
(repository dhruvilrpatil/urlshortner) and proofs about its behaviour.

Timestamps are modelled as integer Unix seconds (`Int`); the source stores
ISO-8601 second-resolution strings whose ordering agrees with the numeric
ordering of the instants they denote.  SQLite tables are modelled as a list
of rows (the `urls` table, ordered by insertion like SQLite rowids, so that
`fetchone` on a `SELECT` returns the first matching row) and as finite maps
(the `rate_limits` and `spam_submissions` tables, which are only ever read
and upserted by their primary key).
-/

namespace UrlShortener

/-- Constant from app.py line 13. -/
def BASE62_ALPHABET : List Char :=
  "0123456789ABCDEFGHIJKLMNOPQRSTUVWXYZabcdefghijklmnopqrstuvwxyz".toList

/-- Constant from app.py line 14. -/
def CODE_LENGTH : Nat := 7

/-- Constant from app.py line 15. -/
def MAX_URL_LENGTH : Nat := 2048

/-- Constant from app.py line 16 (URLs expire after 24 hours). -/
def EXPIRATION_HOURS : Int := 24

/-- Constant from app.py line 21. -/
def SPAM_WINDOW_SECONDS : Int := 30

/-- Constant from app.py line 22. -/
def SPAM_MAX_DUPLICATES : Int := 3

/-- Constant from app.py lines 17-20: the `RATE_LIMITS` dict, mapping a bucket
name to `(limit, window)` or `none` when the bucket is not configured. -/
def RATE_LIMITS (bucket : String) : Option (Int × Int) :=
  if bucket = "shorten" then some (10, 60)
  else if bucket = "follow" then some (120, 60)
  else none

/-- One row of the `urls` table.  `clickCount` starts at 0.
The schema itself (schema.sql) is not under src/; per the spec the table has a
uniqueness constraint on `code` and `click_count` defaults to 0. -/
structure UrlRecord where
  id : Nat
  code : String
  originalUrl : String
  createdAt : Int
  expiresAt : Int
  clickCount : Nat
deriving Repr, DecidableEq

/-- One row of the `rate_limits` / `spam_submissions` tables (minus its key). -/
structure Window where
  windowStart : Int
  count : Int
deriving Repr, DecidableEq

/-- The durable state: the three SQLite tables plus the id autoincrement
counter for `urls`. -/
structure DB where
  urls : List UrlRecord
  rateLimits : String × String → Option Window
  spam : String × String → Option Window
  nextId : Nat

/-- A database with empty tables. -/
def emptyDB : DB := ⟨[], fun _ => none, fun _ => none, 1⟩

/-- Keyed upsert, modelling both `INSERT ... ON CONFLICT(...) DO UPDATE`
and `UPDATE ... WHERE key = ?` on a keyed counter table. -/
def setTbl (tbl : String × String → Option Window) (key : String × String)
    (w : Window) : String × String → Option Window :=
  fun k => if k = key then some w else tbl k

/-- `SELECT ... FROM urls WHERE original_url = ?` + `fetchone` (app.py lines 70-73). -/
def findByUrl (db : DB) (url : String) : Option UrlRecord :=
  db.urls.find? (fun r => decide (r.originalUrl = url))

/-- `SELECT ... FROM urls WHERE code = ?` + `fetchone` (app.py lines 119-122, 228, 246). -/
def findByCode (db : DB) (code : String) : Option UrlRecord :=
  db.urls.find? (fun r => decide (r.code = code))

/-- `INSERT INTO urls (code, original_url, created_at, expires_at) VALUES (...)`
(app.py lines 232-235 and 251-254); `click_count` defaults to 0 per the schema. -/
def insertRecord (db : DB) (code originalUrl : String) (createdAt expiresAt : Int) : DB :=
  { db with
    urls := db.urls ++ [⟨db.nextId, code, originalUrl, createdAt, expiresAt, 0⟩],
    nextId := db.nextId + 1 }

/-- `DELETE FROM urls WHERE id = ?` (app.py line 130). -/
def deleteById (db : DB) (id : Nat) : DB :=
  { db with urls := db.urls.filter (fun r => decide (r.id ≠ id)) }

/-- `UPDATE urls SET click_count = click_count + 1 WHERE id = ?` (app.py lines 134-137). -/
def incrementClicks (db : DB) (id : Nat) : DB :=
  { db with urls :=
      db.urls.map (fun r => if r.id = id then { r with clickCount := r.clickCount + 1 } else r) }

/-- `check_rate_limit` (app.py lines 292-323): read the `(ip, bucket)` window;
reset it when absent or stale, else increment in place; allow iff the new
count is within the limit. -/
def check_rate_limit (db : DB) (now : Int) (ip bucket : String)
    (window_seconds limit : Int) : Bool × DB :=
  match db.rateLimits (ip, bucket) with
  | none =>
      (decide ((1 : Int) ≤ limit),
       { db with rateLimits := setTbl db.rateLimits (ip, bucket) ⟨now, 1⟩ })
  | some row =>
      if now - row.windowStart ≥ window_seconds then
        (decide ((1 : Int) ≤ limit),
         { db with rateLimits := setTbl db.rateLimits (ip, bucket) ⟨now, 1⟩ })
      else
        (decide (row.count + 1 ≤ limit),
         { db with rateLimits :=
             setTbl db.rateLimits (ip, bucket) ⟨row.windowStart, row.count + 1⟩ })

/-- `is_spam_submission` (app.py lines 326-351): same windowed counter over the
`(ip, original_url)` key with the 30s window; spam iff the new count exceeds
`SPAM_MAX_DUPLICATES`. -/
def is_spam_submission (db : DB) (now : Int) (ip original_url : String) : Bool × DB :=
  match db.spam (ip, original_url) with
  | none =>
      (decide ((1 : Int) > SPAM_MAX_DUPLICATES),
       { db with spam := setTbl db.spam (ip, original_url) ⟨now, 1⟩ })
  | some row =>
      if now - row.windowStart ≥ SPAM_WINDOW_SECONDS then
        (decide ((1 : Int) > SPAM_MAX_DUPLICATES),
         { db with spam := setTbl db.spam (ip, original_url) ⟨now, 1⟩ })
      else
        (decide (row.count + 1 > SPAM_MAX_DUPLICATES),
         { db with spam :=
             setTbl db.spam (ip, original_url) ⟨row.windowStart, row.count + 1⟩ })

/-- The while loop of `base62_encode` (app.py lines 209-212), with an explicit
structural fuel bound: each iteration divides `value` by 62, so `value` itself
bounds the iteration count.  Emits base-62 digits least-significant first
while `value > 0`. -/
def base62CharsAux : Nat → Nat → List Char
  | 0, _ => []
  | fuel + 1, value =>
    if value = 0 then []
    else BASE62_ALPHABET.getD (value % 62) '0' :: base62CharsAux fuel (value / 62)

/-- The digit list produced by the `base62_encode` while loop. -/
def base62Chars (value : Nat) : List Char :=
  base62CharsAux value value

/-- The `encoded` local of `base62_encode` (app.py lines 206-213): the digit
list most-significant first; value 0 encodes as "0". -/
def base62Digits (value : Nat) : List Char :=
  if value = 0 then ['0'] else (base62Chars value).reverse

/-- `base62_encode` (app.py lines 205-217): the digits, left-padded with "0"
to `min_length`. -/
def base62_encode (value : Nat) (min_length : Nat) : String :=
  if (base62Digits value).length < min_length then
    String.mk (List.replicate (min_length - (base62Digits value).length) '0' ++
      base62Digits value)
  else
    String.mk (base62Digits value)

/-- `generate_code` (app.py lines 220-222).  `secrets.randbelow(62 ** CODE_LENGTH)`
yields a uniform integer strictly below `62 ^ CODE_LENGTH`; the random oracle
value `r` is reduced modulo that bound to model it. -/
def generate_code (r : Nat) : String :=
  base62_encode (r % 62 ^ CODE_LENGTH) CODE_LENGTH

/-- The standard most-significant-first base-62 representation of a number
(no padding), written the way the spec describes it; value 0 is "0". -/
def base62Rep (v : Nat) : List Char :=
  if _h : v < 62 then [BASE62_ALPHABET.getD v '0']
  else base62Rep (v / 62) ++ [BASE62_ALPHABET.getD (v % 62) '0']
termination_by v
decreasing_by
  exact Nat.div_lt_self (by omega) (by norm_num)

/-- Scheme characters accepted by `urllib.parse`: letters, digits, `+`, `-`, `.`. -/
def isSchemeChar (c : Char) : Bool :=
  c.isAlphanum || c = '+' || c = '-' || c = '.'

/-- Split a character list at its first colon, returning the parts before and
after it, or `none` when there is no colon. -/
def schemeSplit : List Char → Option (List Char × List Char)
  | [] => none
  | c :: rest =>
    if c = ':' then some ([], rest)
    else
      match schemeSplit rest with
      | some (pre, post) => some (c :: pre, post)
      | none => none

/-- Modelled from `urllib.parse.urlsplit`: when the text before the first colon
is a letter followed by scheme characters, that prefix (lowercased) is the
scheme and the remainder follows the colon; otherwise the scheme is empty. -/
def urlScheme (chars : List Char) : String × List Char :=
  match schemeSplit chars with
  | some (c0 :: pre, post) =>
    if c0.isAlpha && pre.all isSchemeChar then
      (String.mk ((c0 :: pre).map Char.toLower), post)
    else ("", chars)
  | _ => ("", chars)

/-- Modelled from `urllib.parse.urlsplit`: the netloc is the text between a
leading `//` and the next `/`, `?` or `#` (empty when there is no `//`). -/
def netlocOf : List Char → List Char
  | '/' :: '/' :: rest => rest.takeWhile (fun c => decide (c ≠ '/' ∧ c ≠ '?' ∧ c ≠ '#'))
  | _ => []

/-- `validate_url` (app.py lines 173-184): non-empty, at most 2048 characters,
scheme `http` or `https`, non-empty netloc; `none` means valid. -/
def validate_url (url : String) : Option String :=
  if url = "" then some "Please enter a URL."
  else if url.length > MAX_URL_LENGTH then some "URL is too long."
  else
    let parsed := urlScheme url.toList
    if ¬(parsed.1 = "http" ∨ parsed.1 = "https") then
      some "URL must start with http:// or https://."
    else if netlocOf parsed.2 = [] then
      some "URL must include a valid domain."
    else none

/-- Modelled from CPython `str.isalnum`, faithful on the Latin-1 range
U+0000..U+00FF (ASCII alphanumerics plus the Latin-1 ordinal indicators,
superscripts, micro sign, vulgar fractions and letters, excluding the
multiplication and division signs).  Characters above U+00FF, which Python
would also classify by Unicode category, are not modelled and are treated as
not alphanumeric. -/
def pyIsAlnum (c : Char) : Bool :=
  c.isAlphanum ||
    (let n := c.toNat
     n = 0xAA || n = 0xB2 || n = 0xB3 || n = 0xB5 || n = 0xB9 || n = 0xBA ||
     n = 0xBC || n = 0xBD || n = 0xBE ||
     (0xC0 ≤ n && n ≤ 0xFF && n ≠ 0xD7 && n ≠ 0xF7))

/-- `validate_custom_code` (app.py lines 187-202): empty passes (the caller
only validates a non-empty code), length must be 3..32, and every character
must satisfy `c.isalnum() or c in "-_"`; `none` means valid. -/
def validate_custom_code (code : String) : Option String :=
  if code = "" then none
  else if code.length < 3 then some "Short code must be at least 3 characters."
  else if code.length > 32 then some "Short code must be at most 32 characters."
  else if ¬(code.toList.all (fun c => pyIsAlnum c || c = '-' || c = '_')) then
    some "Short code can only contain letters, numbers, hyphens, and underscores."
  else none

/-- The loop body of `insert_unique_url` (app.py lines 226-239), indexed by the
remaining attempts `n` and the absolute attempt index `i`.  `rnd i` is the
random integer drawn on attempt `i`; `race i = true` models the
`sqlite3.IntegrityError` raised by the unique constraint on `code` when a
concurrent writer inserts the same code between the existence check and the
`INSERT` — both the existence hit and the constraint violation `continue` the
loop.  A conflicting attempt leaves the modelled state unchanged. -/
def insertAttempts (rnd : Nat → Nat) (race : Nat → Bool) (url : String)
    (ca ea : Int) : Nat → Nat → DB → Option String × DB
  | 0, _, db => (none, db)
  | n + 1, i, db =>
    let code := generate_code (rnd i)
    if (findByCode db code).isSome = true then
      insertAttempts rnd race url ca ea n (i + 1) db
    else if race i = true then
      insertAttempts rnd race url ca ea n (i + 1) db
    else
      (some code, insertRecord db code url ca ea)

/-- `insert_unique_url` (app.py lines 225-240): up to 10 attempts, `none` after
10 conflicts. -/
def insert_unique_url (rnd : Nat → Nat) (race : Nat → Bool) (db : DB)
    (original_url : String) (created_at expires_at : Int) : Option String × DB :=
  insertAttempts rnd race original_url created_at expires_at 10 0 db

/-- `insert_custom_url` (app.py lines 243-258): a single attempt; `none` when
the code is already taken.  (The `IntegrityError` arm is the same concurrent
duplicate signal as in `insert_unique_url` and is unreachable in this
sequential model once the existence check has come back empty.) -/
def insert_custom_url (db : DB) (code original_url : String)
    (created_at expires_at : Int) : Option String × DB :=
  if (findByCode db code).isSome = true then (none, db)
  else (some code, insertRecord db code original_url created_at expires_at)

/-- The body outcomes of the `POST /shorten` handler, with their HTTP status. -/
inductive ShortenResult where
  | invalidUrl (msg : String)
  | invalidCode (msg : String)
  | rateLimited
  | spamDetected
  | idempotentHit (code originalUrl : String)
  | codeTaken
  | allocationFailed
  | created (code : String) (expiresAt : Int)
deriving Repr, DecidableEq

/-- The HTTP status attached to each `shorten` outcome (app.py lines 58, 64,
68, 84, 94, 98, 109 and 284). -/
def shortenStatus : ShortenResult → Nat
  | .invalidUrl _ => 400
  | .invalidCode _ => 400
  | .rateLimited => 429
  | .spamDetected => 429
  | .idempotentHit _ _ => 200
  | .codeTaken => 409
  | .allocationFailed => 409
  | .created _ _ => 201

/-- The code carried by a successful `shorten` response (201 created or 200
idempotent hit). -/
def shortenCode : ShortenResult → Option String
  | .idempotentHit c _ => some c
  | .created c _ => some c
  | _ => none

/-- The `shorten` handler body (app.py lines 51-110), after the JSON fields
have been extracted and stripped: validate the URL, validate a non-empty
custom code, run the spam check, then the idempotency lookup, then allocate
(custom: one attempt; random: the 10-attempt loop) and insert with
`created_at = now` and `expires_at = now + 24h`. -/
def shorten (rnd : Nat → Nat) (race : Nat → Bool) (db : DB) (now : Int)
    (ip original_url custom_code : String) : ShortenResult × DB :=
  match validate_url original_url with
  | some msg => (ShortenResult.invalidUrl msg, db)
  | none =>
    match (if custom_code = "" then none else validate_custom_code custom_code) with
    | some msg => (ShortenResult.invalidCode msg, db)
    | none =>
      match is_spam_submission db now ip original_url with
      | (true, db1) => (ShortenResult.spamDetected, db1)
      | (false, db1) =>
        match findByUrl db1 original_url with
        | some existing =>
          (ShortenResult.idempotentHit existing.code existing.originalUrl, db1)
        | none =>
          if custom_code ≠ "" then
            match insert_custom_url db1 custom_code original_url now
                (now + EXPIRATION_HOURS * 3600) with
            | (none, db2) => (ShortenResult.codeTaken, db2)
            | (some code, db2) =>
              (ShortenResult.created code (now + EXPIRATION_HOURS * 3600), db2)
          else
            match insert_unique_url rnd race db1 original_url now
                (now + EXPIRATION_HOURS * 3600) with
            | (none, db2) => (ShortenResult.allocationFailed, db2)
            | (some code, db2) =>
              (ShortenResult.created code (now + EXPIRATION_HOURS * 3600), db2)

/-- The outcomes of the `GET /<code>` handler, with their HTTP status. -/
inductive FollowResult where
  | notFound
  | rateLimited
  | redirect (url : String)
deriving Repr, DecidableEq

/-- The HTTP status attached to each `follow` outcome (app.py lines 116, 124,
132, 139 and 284). -/
def followStatus : FollowResult → Nat
  | .notFound => 404
  | .rateLimited => 429
  | .redirect _ => 302

/-- The `follow` handler body (app.py lines 114-139): reject empty or over-long
codes, look the code up, lazily delete it when `now` is strictly past
`expires_at`, otherwise bump the click count and redirect. -/
def follow (db : DB) (now : Int) (code : String) : FollowResult × DB :=
  if code = "" ∨ code.length > 32 then (FollowResult.notFound, db)
  else
    match findByCode db code with
    | none => (FollowResult.notFound, db)
    | some row =>
      if now > row.expiresAt then (FollowResult.notFound, deleteById db row.id)
      else (FollowResult.redirect row.originalUrl, incrementClicks db row.id)

/-- Python `s.split(",")[0]`: the characters before the first comma (the whole
string when it has no comma). -/
def firstCommaEntry (s : String) : String :=
  String.mk (s.toList.takeWhile (fun c => decide (c ≠ ',')))

/-- Python `s.strip()`: drop whitespace from both ends.  (Python strips by
`str.isspace`, which agrees with `Char.isWhitespace` on the ASCII whitespace
relevant here.) -/
def pyStrip (s : String) : String :=
  String.mk (((s.toList.dropWhile Char.isWhitespace).reverse.dropWhile
    Char.isWhitespace).reverse)

/-- `get_client_ip` (app.py lines 266-270).  `xff` is the `X-Forwarded-For`
header (`none` when absent; Flask's `headers.get(..., "")` turns both an
absent header and a present-but-empty one into `""`), `remote` is
`request.remote_addr` (`none` when the socket has no peer).  Python's
truthiness tests map to emptiness tests on the defaulted strings. -/
def get_client_ip (xff remote : Option String) : String :=
  let forwarded := xff.getD ""
  if forwarded ≠ "" then pyStrip (firstCommaEntry forwarded)
  else
    let r := remote.getD ""
    if r ≠ "" then r else "unknown"

/-- The `rate_limit` decorator (app.py lines 273-289), generic in the wrapped
handler: look the bucket up in `RATE_LIMITS` (no check when absent), run
`check_rate_limit`, and either short-circuit with the 429 response `denied`
or run the handler on the updated state. -/
def rate_limit {α : Type} (bucket : String) (denied : α)
    (handler : DB → α × DB) (db : DB) (now : Int) (ip : String) : α × DB :=
  match RATE_LIMITS bucket with
  | none => handler db
  | some (limit, window) =>
    match check_rate_limit db now ip bucket window limit with
    | (true, db1) => handler db1
    | (false, db1) => (denied, db1)

/-- The full `POST /shorten` route: the `shorten` body behind
`rate_limit("shorten")` (app.py lines 49-51). -/
def shorten_route (rnd : Nat → Nat) (race : Nat → Bool) (db : DB) (now : Int)
    (ip original_url custom_code : String) : ShortenResult × DB :=
  rate_limit "shorten" ShortenResult.rateLimited
    (fun d => shorten rnd race d now ip original_url custom_code) db now ip

/-- The full `GET /<code>` route: the `follow` body behind
`rate_limit("follow")` (app.py lines 112-114). -/
def follow_route (db : DB) (now : Int) (ip code : String) : FollowResult × DB :=
  rate_limit "follow" FollowResult.rateLimited (fun d => follow d now code) db now ip

/-- Iterate `check_rate_limit` over a list of request times, collecting the
allowed/denied verdicts. -/
def rateCalls (ip bucket : String) (window limit : Int) :
    DB → List Int → List Bool × DB
  | db, [] => ([], db)
  | db, t :: ts =>
    let step := check_rate_limit db t ip bucket window limit
    let rest := rateCalls ip bucket window limit step.2 ts
    (step.1 :: rest.1, rest.2)

/-- Iterate the `shorten` body over a list of request times (same client IP,
same URL, no custom code), collecting the responses. -/
def shortenCalls (rnd : Nat → Nat) (race : Nat → Bool) (ip url : String) :
    DB → List Int → List ShortenResult × DB
  | db, [] => ([], db)
  | db, t :: ts =>
    let step := shorten rnd race db t ip url ""
    let rest := shortenCalls rnd race ip url step.2 ts
    (step.1 :: rest.1, rest.2)

/-- No two rows of the `urls` table carry the same code (the uniqueness
constraint the store enforces at insert time). -/
def codesUnique (db : DB) : Prop :=
  ∀ r1 ∈ db.urls, ∀ r2 ∈ db.urls, r1.code = r2.code → r1 = r2

/-- The client-IP derivation as claim C10 words it: first comma-separated
entry of the forwarding header, stripped, whenever the header is present;
else the peer address; else "unknown". -/
def claimClientIp (xff remote : Option String) : String :=
  match xff with
  | some s => pyStrip (firstCommaEntry s)
  | none =>
    match remote with
    | some r => r
    | none => "unknown"

/-- A conflicting random-allocation attempt: attempt `i` either finds its
candidate code already present, or its `INSERT` hits the uniqueness
constraint (a concurrent duplicate, `race i`). -/
def attemptFails (rnd : Nat → Nat) (race : Nat → Bool) (db : DB) (i : Nat) : Prop :=
  (findByCode db (generate_code (rnd i))).isSome = true ∨ race i = true

/-- The character set named by claim C6: `[A-Za-z0-9_-]`.
(`Char.isAlphanum` is exactly the ASCII set `[0-9A-Za-z]`.) -/
def claimCodeCharOk (c : Char) : Bool :=
  c.isAlphanum || c = '-' || c = '_'

/-! ### Helper lemmas -/

theorem setTbl_ne (tbl : String × String → Option Window) (key k : String × String)
    (w : Window) (h : k ≠ key) : setTbl tbl key w k = tbl k := by
  simp [setTbl, h]

theorem check_rate_limit_state (db : DB) (now : Int) (ip bucket : String)
    (window limit : Int) :
    ∃ w, (check_rate_limit db now ip bucket window limit).2 =
      { db with rateLimits := setTbl db.rateLimits (ip, bucket) w } := by
  unfold check_rate_limit
  cases h : db.rateLimits (ip, bucket) with
  | none => exact ⟨⟨now, 1⟩, rfl⟩
  | some row =>
    by_cases hc : now - row.windowStart ≥ window
    · exact ⟨⟨now, 1⟩, by simp [hc]⟩
    · exact ⟨⟨row.windowStart, row.count + 1⟩, by simp [hc]⟩

theorem is_spam_state (db : DB) (now : Int) (ip url : String) :
    ∃ w, (is_spam_submission db now ip url).2 =
      { db with spam := setTbl db.spam (ip, url) w } := by
  unfold is_spam_submission
  cases h : db.spam (ip, url) with
  | none => exact ⟨⟨now, 1⟩, rfl⟩
  | some row =>
    by_cases hc : now - row.windowStart ≥ SPAM_WINDOW_SECONDS
    · exact ⟨⟨now, 1⟩, by simp [hc]⟩
    · exact ⟨⟨row.windowStart, row.count + 1⟩, by simp [hc]⟩

theorem is_spam_frame (db : DB) (now : Int) (ip url : String) :
    (is_spam_submission db now ip url).2.urls = db.urls ∧
    (is_spam_submission db now ip url).2.rateLimits = db.rateLimits ∧
    (is_spam_submission db now ip url).2.nextId = db.nextId := by
  obtain ⟨w, hw⟩ := is_spam_state db now ip url
  rw [hw]
  exact ⟨rfl, rfl, rfl⟩

theorem findByUrl_congr (db1 db2 : DB) (url : String) (h : db1.urls = db2.urls) :
    findByUrl db1 url = findByUrl db2 url := by
  unfold findByUrl; rw [h]

theorem findByCode_congr (db1 db2 : DB) (code : String) (h : db1.urls = db2.urls) :
    findByCode db1 code = findByCode db2 code := by
  unfold findByCode; rw [h]

/-! ### Claim C2 -/

/-- Claim C2: for every call to the rate-limit counter with key `(ip, bucket)`,
window `window` and limit `limit`: when no window exists or
`now - windowStart ≥ window` the window is reset to `(now, 1)` and the call is
allowed iff `1 ≤ limit`; otherwise the count is incremented in place (window
start unchanged) and the call is allowed iff the new count is within the
limit.  Consequently with limit 10 / window 60 on bucket `shorten`, the 11th
request inside the window is denied and the first request at 60 seconds after
the window start is allowed again. -/
theorem C2_check_rate_limit (db : DB) (now : Int) (ip bucket : String)
    (window limit : Int) :
    (db.rateLimits (ip, bucket) = none →
      check_rate_limit db now ip bucket window limit =
        (decide ((1 : Int) ≤ limit),
         { db with rateLimits := setTbl db.rateLimits (ip, bucket) ⟨now, 1⟩ })) ∧
    (∀ w, db.rateLimits (ip, bucket) = some w → now - w.windowStart ≥ window →
      check_rate_limit db now ip bucket window limit =
        (decide ((1 : Int) ≤ limit),
         { db with rateLimits := setTbl db.rateLimits (ip, bucket) ⟨now, 1⟩ })) ∧
    (∀ w, db.rateLimits (ip, bucket) = some w → ¬(now - w.windowStart ≥ window) →
      check_rate_limit db now ip bucket window limit =
        (decide (w.count + 1 ≤ limit),
         { db with rateLimits :=
             setTbl db.rateLimits (ip, bucket) ⟨w.windowStart, w.count + 1⟩ })) ∧
    RATE_LIMITS "shorten" = some (10, 60) ∧
    (rateCalls "203.0.113.9" "shorten" 60 10 emptyDB
        [0, 5, 10, 15, 20, 25, 30, 35, 40, 45, 50, 60]).1 =
      [true, true, true, true, true, true, true, true, true, true, false, true] := by
  refine ⟨?_, ?_, ?_, by decide, by decide⟩
  · intro h; unfold check_rate_limit; rw [h]
  · intro w h hc; unfold check_rate_limit; rw [h]; simp [hc]
  · intro w h hc; unfold check_rate_limit; rw [h]; simp [hc]

/-- Witness for C2: a concrete call on an empty table resets the window and is
allowed. -/
theorem C2_witness :
    check_rate_limit emptyDB 7 "1.2.3.4" "shorten" 60 10 =
      (decide ((1 : Int) ≤ 10),
       { emptyDB with rateLimits := setTbl emptyDB.rateLimits ("1.2.3.4", "shorten") ⟨7, 1⟩ }) :=
  (C2_check_rate_limit emptyDB 7 "1.2.3.4" "shorten" 60 10).1 rfl

/-! ### Claim C9 -/

/-- Claim C9: when the rate limiter denies a request, the request's outcome is
the 429 response and the only state change is that request's own
`(ip, bucket)` counter: the `urls` table, the spam counters, the id counter
and every other rate-limit counter are unchanged, and the wrapped handler
(the endpoint's main logic) never runs — the outcome is the same for every
handler. -/
theorem C9_denied_frame {α : Type} (bucket : String) (denied : α) (db : DB)
    (now : Int) (ip : String) (limit window : Int)
    (hcfg : RATE_LIMITS bucket = some (limit, window))
    (hdeny : (check_rate_limit db now ip bucket window limit).1 = false)
    (handler : DB → α × DB) :
    rate_limit bucket denied handler db now ip =
      (denied, (check_rate_limit db now ip bucket window limit).2) ∧
    (check_rate_limit db now ip bucket window limit).2.urls = db.urls ∧
    (check_rate_limit db now ip bucket window limit).2.spam = db.spam ∧
    (check_rate_limit db now ip bucket window limit).2.nextId = db.nextId ∧
    ∀ k, k ≠ (ip, bucket) →
      (check_rate_limit db now ip bucket window limit).2.rateLimits k =
        db.rateLimits k := by
  obtain ⟨w, hw⟩ := check_rate_limit_state db now ip bucket window limit
  refine ⟨?_, ?_, ?_, ?_, ?_⟩
  · unfold rate_limit
    rw [hcfg]
    have hpair : check_rate_limit db now ip bucket window limit =
        (false, (check_rate_limit db now ip bucket window limit).2) := by
      rw [← hdeny]
    dsimp only
    rw [hpair]
  · rw [hw]
  · rw [hw]
  · rw [hw]
  · intro k hk; rw [hw]; exact setTbl_ne _ _ _ _ hk

/-- Witness for C9: a concrete denied request (count already at the limit)
short-circuits with only its own counter updated. -/
theorem C9_witness :
    rate_limit "shorten" false (fun d => (true, d))
        ⟨[], fun k => if k = ("1.2.3.4", "shorten") then some ⟨0, 10⟩ else none,
         fun _ => none, 1⟩ 5 "1.2.3.4" =
      (false,
       (check_rate_limit
          ⟨[], fun k => if k = ("1.2.3.4", "shorten") then some ⟨0, 10⟩ else none,
           fun _ => none, 1⟩ 5 "1.2.3.4" "shorten" 60 10).2) ∧
    (check_rate_limit
        ⟨[], fun k => if k = ("1.2.3.4", "shorten") then some ⟨0, 10⟩ else none,
         fun _ => none, 1⟩ 5 "1.2.3.4" "shorten" 60 10).2.urls = [] ∧
    ∀ k, k ≠ ("1.2.3.4", "shorten") →
      (check_rate_limit
          ⟨[], fun k => if k = ("1.2.3.4", "shorten") then some ⟨0, 10⟩ else none,
           fun _ => none, 1⟩ 5 "1.2.3.4" "shorten" 60 10).2.rateLimits k =
        (if k = ("1.2.3.4", "shorten") then some (⟨0, 10⟩ : Window) else none) := by
  have h := C9_denied_frame "shorten" false
    (⟨[], fun k => if k = ("1.2.3.4", "shorten") then some ⟨0, 10⟩ else none,
      fun _ => none, 1⟩ : DB) 5 "1.2.3.4" 10 60 (by decide) (by decide)
    (fun d => (true, d))
  exact ⟨h.1, h.2.1, h.2.2.2.2⟩

/-! ### Claim C10 -/

/-- Claim C10 counterexample: when the forwarding header is present but empty,
the code falls back to the peer address, while the claim as stated says a
present header is always used (its first comma-separated entry, here the
empty string). -/
theorem C10_counterexample :
    get_client_ip (some "") (some "203.0.113.7") = "203.0.113.7" ∧
    claimClientIp (some "") (some "203.0.113.7") = "" ∧
    ("203.0.113.7" : String) ≠ "" := by decide

/-- Claim C10 as amended: the first comma-separated entry of the forwarding
header, stripped of surrounding whitespace, is used only when the header is
present with a non-empty value; an absent or empty header falls back to the
peer address, and "unknown" is returned when that is also absent or empty. -/
theorem C10_client_ip (xff remote : Option String) :
    ((xff = none ∨ xff = some "") → (remote = none ∨ remote = some "") →
      get_client_ip xff remote = "unknown") ∧
    (∀ s, s ≠ "" → xff = some s →
      get_client_ip xff remote = pyStrip (firstCommaEntry s)) ∧
    ((xff = none ∨ xff = some "") → ∀ r, r ≠ "" → remote = some r →
      get_client_ip xff remote = r) := by
  refine ⟨?_, ?_, ?_⟩
  · rintro (rfl | rfl) (rfl | rfl) <;> rfl
  · rintro s hs rfl
    simp [get_client_ip, hs]
  · rintro (rfl | rfl) r hr rfl <;> simp [get_client_ip, hr]

/-- Witness for C10: concrete calls exercising all three amended cases. -/
theorem C10_witness :
    get_client_ip (some "") none = "unknown" ∧
    get_client_ip (some " 1.2.3.4 , 5.6.7.8") (some "9.9.9.9") =
      pyStrip (firstCommaEntry " 1.2.3.4 , 5.6.7.8") ∧
    get_client_ip none (some "9.9.9.9") = "9.9.9.9" :=
  ⟨(C10_client_ip (some "") none).1 (Or.inr rfl) (Or.inl rfl),
   (C10_client_ip (some " 1.2.3.4 , 5.6.7.8") (some "9.9.9.9")).2.1
     " 1.2.3.4 , 5.6.7.8" (by decide) rfl,
   (C10_client_ip none (some "9.9.9.9")).2.2 (Or.inl rfl) "9.9.9.9" (by decide) rfl⟩

/-! ### Claim C6 -/

/-- Claim C6 counterexample: the code accepts the custom code "çab" (Python's
`str.isalnum` classifies the Unicode letter ç as alphanumeric), although ç is
not in the claim's set `[A-Za-z0-9_-]` — so acceptance is not equivalent to
"every character is in `[A-Za-z0-9_-]`". -/
theorem C6_counterexample :
    validate_custom_code "çab" = none ∧
    'ç' ∈ "çab".toList ∧
    claimCodeCharOk 'ç' = false ∧
    "çab".length = 3 := by decide

/-- Claim C6 as amended: a non-empty supplied custom code is accepted iff its
length is 3..32 and every character satisfies Python's Unicode `isalnum` or is
`-` or `_` (a superset of `[A-Za-z0-9_-]`); in particular codes of length 2 or
33 are rejected, codes containing `@` are rejected, and codes of length 3..32
using only the ASCII set `[A-Za-z0-9_-]` are accepted. -/
theorem C6_validate_custom_code (code : String) (hne : code ≠ "") :
    (validate_custom_code code = none ↔
      (3 ≤ code.length ∧ code.length ≤ 32 ∧
        ∀ c ∈ code.toList, (pyIsAlnum c || c = '-' || c = '_') = true)) ∧
    (code.length = 2 ∨ code.length = 33 → (validate_custom_code code).isSome = true) ∧
    ('@' ∈ code.toList → (validate_custom_code code).isSome = true) ∧
    (3 ≤ code.length → code.length ≤ 32 →
      (∀ c ∈ code.toList, claimCodeCharOk c = true) →
      validate_custom_code code = none) := by
  have hsub : ∀ c : Char, claimCodeCharOk c = true →
      (pyIsAlnum c || c = '-' || c = '_') = true := by
    intro c hc
    simp only [claimCodeCharOk, pyIsAlnum, Bool.or_eq_true] at hc ⊢
    rcases hc with (h | h) | h
    · exact Or.inl (Or.inl (Or.inl h))
    · exact Or.inl (Or.inr h)
    · exact Or.inr h
  have hiff : validate_custom_code code = none ↔
      (3 ≤ code.length ∧ code.length ≤ 32 ∧
        ∀ c ∈ code.toList, (pyIsAlnum c || c = '-' || c = '_') = true) := by
    unfold validate_custom_code
    rw [if_neg hne]
    by_cases h1 : code.length < 3
    · rw [if_pos h1]
      exact ⟨fun h => absurd h (by simp), fun h => absurd h.1 (by omega)⟩
    rw [if_neg h1]
    by_cases h2 : code.length > 32
    · rw [if_pos h2]
      exact ⟨fun h => absurd h (by simp), fun h => absurd h.2.1 (by omega)⟩
    rw [if_neg h2]
    by_cases h3 : code.toList.all (fun c => pyIsAlnum c || c = '-' || c = '_') = true
    · rw [if_neg (not_not_intro h3)]
      exact ⟨fun _ => ⟨by omega, by omega, List.all_eq_true.mp h3⟩, fun _ => rfl⟩
    · rw [if_pos h3]
      exact ⟨fun h => absurd h (by simp),
             fun h => absurd (List.all_eq_true.mpr h.2.2) h3⟩
  refine ⟨hiff, ?_, ?_, ?_⟩
  · intro hlen
    cases h : validate_custom_code code with
    | some msg => rfl
    | none =>
      have := (hiff.mp h).1
      have := (hiff.mp h).2.1
      omega
  · intro hat
    cases h : validate_custom_code code with
    | some msg => rfl
    | none =>
      have hall := (hiff.mp h).2.2 '@' hat
      simp [pyIsAlnum] at hall
  · intro h3 h32 hall
    exact hiff.mpr ⟨h3, h32, fun c hc => hsub c (hall c hc)⟩

/-- Witness for C6: the concrete codes from the spec scenarios: "my-link" is
accepted, "ab" (length 2) and "a@b" are rejected. -/
theorem C6_witness :
    validate_custom_code "my-link" = none ∧
    (validate_custom_code "ab").isSome = true ∧
    (validate_custom_code "a@b").isSome = true :=
  ⟨(C6_validate_custom_code "my-link" (by decide)).2.2.2 (by decide) (by decide)
      (by decide),
   (C6_validate_custom_code "ab" (by decide)).2.1 (Or.inl (by decide)),
   (C6_validate_custom_code "a@b" (by decide)).2.2.1 (by decide)⟩

/-! ### Claim C4 -/

/-- Claim C4 counterexample: a resolve performed at a time exactly equal to
`expiresAt` (claim: "time ≥ expiresAt returns NotFound") is still treated as
live by the code (`now > expires_at` is strict): it redirects with 302 and
increments the click count instead of returning NotFound. -/
theorem C4_counterexample :
    (follow ⟨[⟨1, "abc", "http://a", 0, 100, 0⟩], fun _ => none, fun _ => none, 2⟩
        100 "abc").1 = FollowResult.redirect "http://a" ∧
    (follow ⟨[⟨1, "abc", "http://a", 0, 100, 0⟩], fun _ => none, fun _ => none, 2⟩
        100 "abc").2.urls = [⟨1, "abc", "http://a", 0, 100, 1⟩] ∧
    followStatus (FollowResult.redirect "http://a") = 302 := by decide

/-- Claim C4 as amended: for every stored record, a resolve of its code
performed at a time strictly greater than `expiresAt` returns NotFound (404)
and deletes the record from the registry, so that every subsequent resolve of
the same code also returns NotFound — the record is purged, not merely
hidden.  (At a time exactly equal to `expiresAt` the record still resolves.) -/
theorem C4_expiry_purges (db : DB) (now : Int) (code : String) (r : UrlRecord)
    (hne : code ≠ "") (hlen : code.length ≤ 32)
    (hfind : findByCode db code = some r)
    (hexp : now > r.expiresAt)
    (huniq : codesUnique db) :
    follow db now code = (FollowResult.notFound, deleteById db r.id) ∧
    followStatus FollowResult.notFound = 404 ∧
    findByCode (deleteById db r.id) code = none ∧
    ∀ later, (follow (deleteById db r.id) later code).1 = FollowResult.notFound := by
  have hcond : ¬(code = "" ∨ code.length > 32) := by
    push_neg
    exact ⟨hne, by omega⟩
  have hr_mem : r ∈ db.urls := List.mem_of_find?_eq_some hfind
  have hr_code : r.code = code := by
    have h := List.find?_some hfind
    simpa using h
  have hnone : findByCode (deleteById db r.id) code = none := by
    unfold findByCode deleteById
    rw [List.find?_eq_none]
    intro x hx
    simp only [List.mem_filter, decide_eq_true_eq] at hx
    obtain ⟨hxmem, hxid⟩ := hx
    simp only [decide_eq_true_eq]
    intro hxcode
    have hxr : x = r := huniq x hxmem r hr_mem (by rw [hxcode, hr_code])
    rw [hxr] at hxid
    exact hxid rfl
  refine ⟨?_, rfl, hnone, ?_⟩
  · unfold follow
    rw [if_neg hcond, hfind]
    simp [hexp]
  · intro later
    unfold follow
    rw [if_neg hcond, hnone]

/-- Witness for C4: a concrete expired record is purged by the first
post-expiry resolve. -/
theorem C4_witness :
    follow ⟨[⟨1, "abc", "http://a", 0, 100, 0⟩], fun _ => none, fun _ => none, 2⟩
        101 "abc" =
      (FollowResult.notFound,
       deleteById ⟨[⟨1, "abc", "http://a", 0, 100, 0⟩], fun _ => none, fun _ => none, 2⟩ 1) ∧
    findByCode
        (deleteById ⟨[⟨1, "abc", "http://a", 0, 100, 0⟩], fun _ => none, fun _ => none, 2⟩ 1)
        "abc" = none ∧
    ∀ later,
      (follow
          (deleteById ⟨[⟨1, "abc", "http://a", 0, 100, 0⟩], fun _ => none, fun _ => none, 2⟩ 1)
          later "abc").1 = FollowResult.notFound := by
  have h := C4_expiry_purges
    ⟨[⟨1, "abc", "http://a", 0, 100, 0⟩], fun _ => none, fun _ => none, 2⟩
    101 "abc" ⟨1, "abc", "http://a", 0, 100, 0⟩
    (by decide) (by decide) (by decide) (by decide)
    (by
      intro r1 h1 r2 h2 _
      simp only [List.mem_singleton] at h1 h2
      rw [h1, h2])
  exact ⟨h.1, h.2.2.1, h.2.2.2⟩

/-! ### Claim C8 -/

theorem base62CharsAux_congr :
    ∀ (f1 f2 v : Nat), v ≤ f1 → v ≤ f2 → base62CharsAux f1 v = base62CharsAux f2 v := by
  intro f1
  induction f1 with
  | zero =>
    intro f2 v h1 _
    have hv : v = 0 := Nat.le_zero.mp h1
    subst hv
    cases f2 with
    | zero => rfl
    | succ f2 => simp [base62CharsAux]
  | succ f1 ih =>
    intro f2 v h1 h2
    cases f2 with
    | zero =>
      have hv : v = 0 := Nat.le_zero.mp h2
      subst hv
      simp [base62CharsAux]
    | succ f2 =>
      by_cases hv : v = 0
      · subst hv
        simp [base62CharsAux]
      · simp only [base62CharsAux, if_neg hv]
        have hlt : v / 62 < v := Nat.div_lt_self (Nat.pos_of_ne_zero hv) (by norm_num)
        rw [ih f2 (v / 62) (by omega) (by omega)]

theorem base62Chars_step (v : Nat) (hv : v ≠ 0) :
    base62Chars v = BASE62_ALPHABET.getD (v % 62) '0' :: base62Chars (v / 62) := by
  unfold base62Chars
  cases hv2 : v with
  | zero => exact absurd hv2 hv
  | succ k =>
    simp only [base62CharsAux, if_neg (by omega : ¬ k + 1 = 0)]
    have hlt : (k + 1) / 62 < k + 1 := Nat.div_lt_self (by omega) (by norm_num)
    rw [base62CharsAux_congr k ((k + 1) / 62) ((k + 1) / 62) (by omega) le_rfl]

theorem base62Rep_lt (v : Nat) (h : v < 62) :
    base62Rep v = [BASE62_ALPHABET.getD v '0'] := by
  unfold base62Rep
  rw [dif_pos h]

theorem base62Rep_ge (v : Nat) (h : ¬ v < 62) :
    base62Rep v = base62Rep (v / 62) ++ [BASE62_ALPHABET.getD (v % 62) '0'] := by
  conv_lhs => unfold base62Rep
  rw [dif_neg h]

/-- The loop of `base62_encode` agrees with the standard most-significant-first
base-62 representation. -/
theorem base62Digits_rep (v : Nat) : base62Digits v = base62Rep v := by
  induction v using Nat.strong_induction_on with
  | _ v ih =>
    by_cases hv : v = 0
    · subst hv
      rw [base62Digits, if_pos rfl, base62Rep_lt 0 (by norm_num)]
      decide
    · rw [base62Digits, if_neg hv, base62Chars_step v hv, List.reverse_cons]
      by_cases h62 : v < 62
      · have hdiv : v / 62 = 0 := Nat.div_eq_of_lt h62
        have hmod : v % 62 = v := Nat.mod_eq_of_lt h62
        rw [hdiv, hmod, base62Rep_lt v h62]
        rfl
      · have hvd : v / 62 ≠ 0 := by
          have h1 : 62 ≤ v := le_of_not_lt h62
          have h2 : 0 < v / 62 := Nat.div_pos h1 (by norm_num)
          omega
        have ihd := ih (v / 62) (Nat.div_lt_self (Nat.pos_of_ne_zero hv) (by norm_num))
        rw [base62Digits, if_neg hvd] at ihd
        rw [ihd, base62Rep_ge v h62]

theorem alphabet_length : BASE62_ALPHABET.length = 62 := by decide

theorem getD_mem_of_lt (l : List Char) (i : Nat) (d : Char) (h : i < l.length) :
    l.getD i d ∈ l := by
  have hg : l.get? i = some (l.get ⟨i, h⟩) := List.get?_eq_get h
  show (l.get? i).getD d ∈ l
  rw [hg]
  exact List.get_mem l i h

theorem base62Rep_length (n v : Nat) (hn : 1 ≤ n) (hv : v < 62 ^ n) :
    (base62Rep v).length ≤ n := by
  induction n generalizing v with
  | zero => omega
  | succ n ih =>
    by_cases h62 : v < 62
    · rw [base62Rep_lt v h62]
      simp
    · have hn2 : 1 ≤ n := by
        rcases Nat.eq_zero_or_pos n with h | h
        · subst h
          rw [pow_one] at hv
          omega
        · exact h
      have hdiv : v / 62 < 62 ^ n := by
        rw [Nat.div_lt_iff_lt_mul (by norm_num : (0 : ℕ) < 62)]
        calc v < 62 ^ (n + 1) := hv
        _ = 62 ^ n * 62 := pow_succ 62 n
      rw [base62Rep_ge v h62, List.length_append]
      have := ih (v / 62) hn2 hdiv
      simp only [List.length_singleton]
      omega

theorem base62Rep_mem (v : Nat) : ∀ c ∈ base62Rep v, c ∈ BASE62_ALPHABET := by
  induction v using Nat.strong_induction_on with
  | _ v ih =>
    by_cases h62 : v < 62
    · rw [base62Rep_lt v h62]
      intro c hc
      rw [List.mem_singleton] at hc
      subst hc
      exact getD_mem_of_lt _ _ _ (by rw [alphabet_length]; omega)
    · rw [base62Rep_ge v h62]
      intro c hc
      rcases List.mem_append.mp hc with h | h
      · exact ih (v / 62) (Nat.div_lt_self (by omega) (by norm_num)) c h
      · rw [List.mem_singleton] at h
        subst h
        exact getD_mem_of_lt _ _ _
          (by rw [alphabet_length]; exact Nat.mod_lt _ (by norm_num))

theorem base62_encode_eq (v n : Nat) :
    base62_encode v n =
      String.mk (List.replicate (n - (base62Rep v).length) '0' ++ base62Rep v) := by
  unfold base62_encode
  rw [base62Digits_rep]
  by_cases h : (base62Rep v).length < n
  · rw [if_pos h]
  · rw [if_neg h, Nat.sub_eq_zero_of_le (by omega)]
    simp

theorem base62_encode_length (v n : Nat) (hn : 1 ≤ n) (hv : v < 62 ^ n) :
    (base62_encode v n).length = n := by
  rw [base62_encode_eq]
  show (List.replicate (n - (base62Rep v).length) '0' ++ base62Rep v).length = n
  rw [List.length_append, List.length_replicate]
  have := base62Rep_length n v hn hv
  omega

theorem base62_encode_mem (v n : Nat) :
    ∀ c ∈ (base62_encode v n).data, c ∈ BASE62_ALPHABET := by
  rw [base62_encode_eq]
  intro c hc
  have hc2 : c ∈ List.replicate (n - (base62Rep v).length) '0' ++ base62Rep v := hc
  rcases List.mem_append.mp hc2 with h | h
  · rw [List.eq_of_mem_replicate h]
    decide
  · exact base62Rep_mem v c h

theorem generate_code_length (r : Nat) : (generate_code r).length = 7 := by
  unfold generate_code
  exact base62_encode_length _ CODE_LENGTH (by decide)
    (Nat.mod_lt _ (by decide))

/-- Claim C8: for every value in `[0, 62^7)`, `base62_encode` produces the
standard base-62 representation over the alphabet `0-9A-Za-z` (value 0
encoding as "0"), left-padded with "0" to exactly 7 characters; hence every
generated code has length 7 and consists only of ASCII alphanumerics
(matches `^[0-9A-Za-z]{7}$`). -/
theorem C8_base62_encode (v : Nat) (hv : v < 62 ^ 7) :
    base62_encode v 7 =
      String.mk (List.replicate (7 - (base62Rep v).length) '0' ++ base62Rep v) ∧
    (base62_encode v 7).length = 7 ∧
    (∀ c ∈ (base62_encode v 7).data, c ∈ BASE62_ALPHABET) ∧
    base62Rep 0 = ['0'] ∧
    (∀ c ∈ BASE62_ALPHABET, c.isAlphanum = true) ∧
    (∀ r : Nat, (generate_code r).length = 7 ∧
      ∀ c ∈ (generate_code r).data, c.isAlphanum = true) := by
  refine ⟨base62_encode_eq v 7, base62_encode_length v 7 (by norm_num) hv,
    base62_encode_mem v 7, ?_, by decide, ?_⟩
  · rw [base62Rep_lt 0 (by norm_num)]
    decide
  · intro r
    refine ⟨generate_code_length r, ?_⟩
    intro c hc
    have hmem : c ∈ BASE62_ALPHABET :=
      base62_encode_mem (r % 62 ^ CODE_LENGTH) CODE_LENGTH c hc
    exact (by decide : ∀ c ∈ BASE62_ALPHABET, c.isAlphanum = true) c hmem

/-- Witness for C8: the encoding of a concrete value. -/
theorem C8_witness :
    base62_encode 12345 7 =
      String.mk (List.replicate (7 - (base62Rep 12345).length) '0' ++ base62Rep 12345) ∧
    (base62_encode 12345 7).length = 7 ∧
    (∀ c ∈ (base62_encode 12345 7).data, c ∈ BASE62_ALPHABET) :=
  ⟨(C8_base62_encode 12345 (by norm_num)).1,
   (C8_base62_encode 12345 (by norm_num)).2.1,
   (C8_base62_encode 12345 (by norm_num)).2.2.1⟩

/-! ### Claim C7 -/

theorem insertAttempts_all_fail (rnd : Nat → Nat) (race : Nat → Bool)
    (url : String) (ca ea : Int) :
    ∀ (n i : Nat) (db : DB), (∀ k, k < n → attemptFails rnd race db (i + k)) →
      insertAttempts rnd race url ca ea n i db = (none, db) := by
  intro n
  induction n with
  | zero => intro i db _; rfl
  | succ n ih =>
    intro i db h
    have h0 : attemptFails rnd race db i := by
      have := h 0 (Nat.succ_pos n)
      simpa using this
    have hrest : ∀ k, k < n → attemptFails rnd race db (i + 1 + k) := by
      intro k hk
      have := h (k + 1) (by omega)
      have he : i + (k + 1) = i + 1 + k := by omega
      rwa [he] at this
    unfold insertAttempts
    by_cases hf : (findByCode db (generate_code (rnd i))).isSome = true
    · rw [if_pos hf]
      exact ih (i + 1) db hrest
    · rw [if_neg hf]
      rcases h0 with h0 | h0
      · exact absurd h0 hf
      · rw [if_pos h0]
        exact ih (i + 1) db hrest

theorem insertAttempts_success (rnd : Nat → Nat) (race : Nat → Bool)
    (url : String) (ca ea : Int) :
    ∀ (n i j : Nat) (db : DB), j < n →
      (∀ k, k < j → attemptFails rnd race db (i + k)) →
      ¬ attemptFails rnd race db (i + j) →
      insertAttempts rnd race url ca ea n i db =
        (some (generate_code (rnd (i + j))),
         insertRecord db (generate_code (rnd (i + j))) url ca ea) := by
  intro n
  induction n with
  | zero => intro i j db hj; omega
  | succ n ih =>
    intro i j db hj hfail hok
    cases j with
    | zero =>
      unfold attemptFails at hok
      push_neg at hok
      unfold insertAttempts
      rw [if_neg (by simpa using hok.1), if_neg (by simpa using hok.2)]
      simp
    | succ j =>
      have h0 : attemptFails rnd race db i := by
        have := hfail 0 (Nat.succ_pos j)
        simpa using this
      have hrest : ∀ k, k < j → attemptFails rnd race db (i + 1 + k) := by
        intro k hk
        have := hfail (k + 1) (by omega)
        have he : i + (k + 1) = i + 1 + k := by omega
        rwa [he] at this
      have hok2 : ¬ attemptFails rnd race db (i + 1 + j) := by
        have he : i + (j + 1) = i + 1 + j := by omega
        rwa [he] at hok
      have he : i + (j + 1) = i + 1 + j := by omega
      rw [he]
      unfold insertAttempts
      by_cases hf : (findByCode db (generate_code (rnd i))).isSome = true
      · rw [if_pos hf]
        exact ih (i + 1) j db (by omega) hrest hok2
      · rw [if_neg hf]
        rcases h0 with h0 | h0
        · exact absurd h0 hf
        · rw [if_pos h0]
          exact ih (i + 1) j db (by omega) hrest hok2

theorem insertAttempts_some (rnd : Nat → Nat) (race : Nat → Bool)
    (url : String) (ca ea : Int) :
    ∀ (n i : Nat) (db : DB) (c : String) (db2 : DB),
      insertAttempts rnd race url ca ea n i db = (some c, db2) →
      (∃ j, c = generate_code (rnd j)) ∧ findByCode db c = none ∧
        db2 = insertRecord db c url ca ea := by
  intro n
  induction n with
  | zero =>
    intro i db c db2 h
    exact absurd h (by simp [insertAttempts])
  | succ n ih =>
    intro i db c db2 h
    unfold insertAttempts at h
    by_cases hf : (findByCode db (generate_code (rnd i))).isSome = true
    · rw [if_pos hf] at h
      exact ih (i + 1) db c db2 h
    · rw [if_neg hf] at h
      by_cases hr : race i = true
      · rw [if_pos hr] at h
        exact ih (i + 1) db c db2 h
      · rw [if_neg hr] at h
        obtain ⟨hc, hdb⟩ := Prod.mk.injEq .. ▸ h
        obtain rfl : c = generate_code (rnd i) := by
          injection hc with hc
          exact hc.symm
        refine ⟨⟨i, rfl⟩, ?_, hdb.symm⟩
        rw [← Option.not_isSome_iff_eq_none]
        exact hf

/-- Claim C7: random code allocation draws a fresh candidate and attempts an
insert-if-absent on each iteration, makes at most 10 attempts, returns the
inserted code of the first attempt that neither finds the candidate present
nor loses the insert race (a uniqueness-constraint violation is just a
conflict), and after 10 consecutive conflicts returns `None`, which `shorten`
surfaces as AllocationFailed (HTTP 409) rather than an exception. -/
theorem C7_allocation (rnd : Nat → Nat) (race : Nat → Bool) (db : DB)
    (url : String) (ca ea : Int) :
    ((∀ i, i < 10 → attemptFails rnd race db i) →
      insert_unique_url rnd race db url ca ea = (none, db)) ∧
    (∀ j, j < 10 → (∀ i, i < j → attemptFails rnd race db i) →
      ¬ attemptFails rnd race db j →
      insert_unique_url rnd race db url ca ea =
        (some (generate_code (rnd j)),
         insertRecord db (generate_code (rnd j)) url ca ea)) ∧
    (∀ (now : Int) (ip : String), validate_url url = none →
      (is_spam_submission db now ip url).1 = false →
      findByUrl db url = none →
      (∀ i, i < 10 → attemptFails rnd race (is_spam_submission db now ip url).2 i) →
      (shorten rnd race db now ip url "").1 = ShortenResult.allocationFailed ∧
      shortenStatus (shorten rnd race db now ip url "").1 = 409) := by
  refine ⟨?_, ?_, ?_⟩
  · intro h
    exact insertAttempts_all_fail rnd race url ca ea 10 0 db
      (by intro k hk; simpa using h k hk)
  · intro j hj hfail hok
    have := insertAttempts_success rnd race url ca ea 10 0 j db hj
      (by intro k hk; simpa using hfail k hk) (by simpa using hok)
    simpa using this
  · intro now ip hurl hspam hfound hfails
    have hsp : is_spam_submission db now ip url =
        (false, (is_spam_submission db now ip url).2) := by rw [← hspam]
    have hfound2 : findByUrl (is_spam_submission db now ip url).2 url = none := by
      rw [findByUrl_congr _ db url (is_spam_frame db now ip url).1]
      exact hfound
    have hins : insert_unique_url rnd race (is_spam_submission db now ip url).2 url
        now (now + EXPIRATION_HOURS * 3600) = (none, (is_spam_submission db now ip url).2) :=
      insertAttempts_all_fail rnd race url now (now + EXPIRATION_HOURS * 3600) 10 0 _
        (by intro k hk; simpa using hfails k hk)
    have hres : (shorten rnd race db now ip url "").1 = ShortenResult.allocationFailed := by
      unfold shorten
      rw [hurl]
      dsimp only
      rw [if_pos rfl]
      dsimp only
      rw [hsp]
      dsimp only
      rw [hfound2]
      dsimp only
      rw [if_neg (by simp)]
      rw [hins]
    exact ⟨hres, by rw [hres]; rfl⟩

/-- Witness for C7: with every attempt losing the insert race, allocation
fails and leaves the store unchanged. -/
theorem C7_witness :
    insert_unique_url (fun _ => 0) (fun _ => true) emptyDB "http://a" 0 86400 =
      (none, emptyDB) :=
  (C7_allocation (fun _ => 0) (fun _ => true) emptyDB "http://a" 0 86400).1
    (fun _ _ => Or.inr rfl)

/-! ### Structural facts about successful creations -/

theorem validate_custom_code_len (code : String) (hne : code ≠ "")
    (h : validate_custom_code code = none) :
    3 ≤ code.length ∧ code.length ≤ 32 := by
  unfold validate_custom_code at h
  rw [if_neg hne] at h
  by_cases h1 : code.length < 3
  · rw [if_pos h1] at h
    exact absurd h (by simp)
  rw [if_neg h1] at h
  by_cases h2 : code.length > 32
  · rw [if_pos h2] at h
    exact absurd h (by simp)
  exact ⟨by omega, by omega⟩

theorem findByCode_none_iff (db : DB) (code : String) :
    findByCode db code = none ↔ ∀ r ∈ db.urls, r.code ≠ code := by
  unfold findByCode
  rw [List.find?_eq_none]
  simp

theorem findByUrl_none_iff (db : DB) (url : String) :
    findByUrl db url = none ↔ ∀ r ∈ db.urls, r.originalUrl ≠ url := by
  unfold findByUrl
  rw [List.find?_eq_none]
  simp

theorem find?_append_first_none {α : Type} (p : α → Bool) (l1 l2 : List α)
    (h : ∀ x ∈ l1, ¬ p x = true) : (l1 ++ l2).find? p = l2.find? p := by
  induction l1 with
  | nil => simp
  | cons a l ih =>
    rw [List.cons_append, List.find?_cons_of_neg _ (h a (List.mem_cons_self a l))]
    exact ih (fun x hx => h x (List.mem_cons_of_mem a hx))

theorem length_pos_ne_empty (s : String) (h : 0 < s.length) : s ≠ "" := by
  intro he
  subst he
  have h0 : ("" : String).length = 0 := rfl
  omega

/-- Everything a `(ShortenResult.created c ea, db2)` outcome of `shorten`
guarantees: the expiry is `now + 24h`, the spam check allowed the call, the
URL had no record, the allocated code was free, the code is non-empty and at
most 32 characters, and the new state is exactly the spam-updated state plus
one freshly-inserted record. -/
theorem shorten_created (rnd : Nat → Nat) (race : Nat → Bool) (db : DB)
    (now : Int) (ip url custom c : String) (ea : Int) (db2 : DB)
    (h : shorten rnd race db now ip url custom = (ShortenResult.created c ea, db2)) :
    ea = now + EXPIRATION_HOURS * 3600 ∧
    (is_spam_submission db now ip url).1 = false ∧
    findByUrl db url = none ∧
    (∀ r ∈ db.urls, r.code ≠ c) ∧
    (0 < c.length ∧ c.length ≤ 32) ∧
    db2 = insertRecord (is_spam_submission db now ip url).2 c url now
      (now + EXPIRATION_HOURS * 3600) := by
  unfold shorten at h
  cases hv : validate_url url with
  | some msg =>
    rw [hv] at h
    exact absurd h (by simp)
  | none =>
    rw [hv] at h
    dsimp only at h
    cases hc : (if custom = "" then none else validate_custom_code custom) with
    | some msg =>
      rw [hc] at h
      exact absurd h (by simp)
    | none =>
      rw [hc] at h
      dsimp only at h
      cases hsp : is_spam_submission db now ip url with
      | mk b db1 =>
        rw [hsp] at h
        have hurls1 : db1.urls = db.urls := by
          have := (is_spam_frame db now ip url).1
          rw [hsp] at this
          exact this
        cases b with
        | true => exact absurd h (by simp)
        | false =>
          dsimp only at h ⊢
          cases hf : findByUrl db1 url with
          | some ex =>
            rw [hf] at h
            exact absurd h (by simp)
          | none =>
            rw [hf] at h
            dsimp only at h
            have hfound : findByUrl db url = none := by
              rw [← findByUrl_congr db1 db url hurls1]
              exact hf
            by_cases hcu : custom ≠ ""
            · rw [if_pos hcu] at h
              unfold insert_custom_url at h
              by_cases hex : (findByCode db1 custom).isSome = true
              · rw [if_pos hex] at h
                exact absurd h (by simp)
              · rw [if_neg hex] at h
                dsimp only at h
                have h1 : ShortenResult.created custom (now + EXPIRATION_HOURS * 3600) =
                    ShortenResult.created c ea := congrArg Prod.fst h
                have h2 : insertRecord db1 custom url now (now + EXPIRATION_HOURS * 3600) =
                    db2 := congrArg Prod.snd h
                injection h1 with hcc hea
                have hex2 : findByCode db1 c = none := by
                  rw [← hcc]
                  exact Option.not_isSome_iff_eq_none.mp hex
                have hclen := validate_custom_code_len custom
                  (by intro he; exact hcu he)
                  (by
                    rw [if_neg hcu] at hc
                    exact hc)
                rw [hcc] at hclen
                refine ⟨hea.symm, rfl, hfound, ?_, ⟨by omega, by omega⟩, ?_⟩
                · intro r hr
                  exact (findByCode_none_iff db1 c).mp hex2 r (by rw [hurls1]; exact hr)
                · rw [← h2, hcc]
            · rw [if_neg hcu] at h
              cases hins : insert_unique_url rnd race db1 url now
                  (now + EXPIRATION_HOURS * 3600) with
              | mk o dbx =>
                rw [hins] at h
                cases o with
                | none => exact absurd h (by simp)
                | some code =>
                  dsimp only at h
                  have h1 : ShortenResult.created code (now + EXPIRATION_HOURS * 3600) =
                      ShortenResult.created c ea := congrArg Prod.fst h
                  have h2 : dbx = db2 := congrArg Prod.snd h
                  injection h1 with hcc hea
                  obtain ⟨⟨j, hj⟩, hnone, hdbx⟩ :=
                    insertAttempts_some rnd race url now (now + EXPIRATION_HOURS * 3600)
                      10 0 db1 code dbx hins
                  have hlen : c.length = 7 := by
                    rw [← hcc, hj]
                    exact generate_code_length (rnd j)
                  refine ⟨hea.symm, rfl, hfound, ?_, ⟨by omega, by omega⟩, ?_⟩
                  · intro r hr
                    have := (findByCode_none_iff db1 code).mp hnone r
                      (by rw [hurls1]; exact hr)
                    rw [← hcc]
                    exact this
                  · rw [← h2, hdbx, hcc]

theorem map_id_of (l : List UrlRecord) (f : UrlRecord → UrlRecord)
    (h : ∀ r ∈ l, f r = r) : l.map f = l := by
  induction l with
  | nil => rfl
  | cons a l ih =>
    rw [List.map_cons, h a (List.mem_cons_self a l),
      ih (fun r hr => h r (List.mem_cons_of_mem a hr))]

/-- A resolve of a live record: the redirect goes to the stored URL and the
only state change is that record's click count going up by one. -/
theorem follow_live (db : DB) (t : Int) (c : String) (pre : List UrlRecord)
    (rec : UrlRecord)
    (hurls : db.urls = pre ++ [rec])
    (hpre : ∀ r ∈ pre, r.code ≠ c) (hcode : rec.code = c)
    (hne : c ≠ "") (hlen : c.length ≤ 32)
    (hid : ∀ r ∈ pre, r.id ≠ rec.id)
    (ht : ¬ t > rec.expiresAt) :
    follow db t c =
      (FollowResult.redirect rec.originalUrl,
       { db with urls := pre ++ [{ rec with clickCount := rec.clickCount + 1 }] }) := by
  have hfind : findByCode db c = some rec := by
    unfold findByCode
    rw [hurls, find?_append_first_none _ pre [rec]
      (by
        intro x hx
        simp only [decide_eq_true_eq]
        exact hpre x hx)]
    rw [List.find?_cons_of_pos _ (by simp [hcode])]
  unfold follow
  rw [if_neg (by push_neg; exact ⟨hne, by omega⟩), hfind]
  dsimp only
  rw [if_neg ht]
  unfold incrementClicks
  have hmap : db.urls.map
      (fun r => if r.id = rec.id then { r with clickCount := r.clickCount + 1 } else r) =
      pre ++ [{ rec with clickCount := rec.clickCount + 1 }] := by
    rw [hurls, List.map_append]
    congr 1
    · exact map_id_of pre _ (fun r hr => if_neg (hid r hr))
    · rw [List.map_cons, List.map_nil, if_pos rfl]
  rw [hmap]

/-! ### Claim C1 -/

/-- Claim C1 counterexample: the URL validates, the spam check allows the
call, and the only record for the URL is already expired (expiresAt 100 <
now 200) — so the claim ("idempotent hit exactly when the registry holds a
live record") requires a fresh creation — yet the code returns the stored
record as an idempotent hit: the lookup does not consult expiry. -/
theorem C1_counterexample :
    (shorten (fun _ => 0) (fun _ => false)
        ⟨[⟨1, "abc1234", "http://a", 0, 100, 0⟩], fun _ => none, fun _ => none, 2⟩
        200 "1.2.3.4" "http://a" "").1 =
      ShortenResult.idempotentHit "abc1234" "http://a" ∧
    validate_url "http://a" = none ∧
    (is_spam_submission
        ⟨[⟨1, "abc1234", "http://a", 0, 100, 0⟩], fun _ => none, fun _ => none, 2⟩
        200 "1.2.3.4" "http://a").1 = false ∧
    (∀ r ∈ ([⟨1, "abc1234", "http://a", 0, 100, 0⟩] : List UrlRecord),
      r.originalUrl = "http://a" → r.expiresAt < 200) := by decide

/-- Claim C1 as amended: for every shorten call whose URL passes validation
and whose spam check allows it, the call returns the existing record as an
idempotent hit (HTTP 200, the previously stored code, no new record created,
any supplied custom code ignored) exactly when the registry already holds a
record — live or expired, expiry is not consulted — for that exact URL; and
shorten called twice with the same URL (no custom code, spam check allowing)
returns the same code both times. -/
theorem C1_idempotent (rnd : Nat → Nat) (race : Nat → Bool) (db : DB) (now : Int)
    (ip url custom : String)
    (hurl : validate_url url = none)
    (hcustom : custom = "" ∨ validate_custom_code custom = none)
    (hspam : (is_spam_submission db now ip url).1 = false) :
    (∀ r, findByUrl db url = some r →
      shorten rnd race db now ip url custom =
        (ShortenResult.idempotentHit r.code r.originalUrl,
         (is_spam_submission db now ip url).2) ∧
      shortenStatus (ShortenResult.idempotentHit r.code r.originalUrl) = 200 ∧
      (is_spam_submission db now ip url).2.urls = db.urls) ∧
    (findByUrl db url = none →
      ∀ a b, (shorten rnd race db now ip url custom).1 ≠
        ShortenResult.idempotentHit a b) ∧
    (∀ c ea db2, shorten rnd race db now ip url "" = (ShortenResult.created c ea, db2) →
      ∀ (now2 : Int) (rnd2 : Nat → Nat) (race2 : Nat → Bool),
        (is_spam_submission db2 now2 ip url).1 = false →
        shortenCode (shorten rnd2 race2 db2 now2 ip url "").1 = some c) := by
  have hcnone : (if custom = "" then none else validate_custom_code custom) = none := by
    by_cases hce : custom = ""
    · rw [if_pos hce]
    · rw [if_neg hce]
      rcases hcustom with rfl | hv
      · exact absurd rfl hce
      · exact hv
  have hsp : is_spam_submission db now ip url =
      (false, (is_spam_submission db now ip url).2) := by rw [← hspam]
  refine ⟨?_, ?_, ?_⟩
  · intro r hr
    have hr1 : findByUrl (is_spam_submission db now ip url).2 url = some r := by
      rw [findByUrl_congr _ db url (is_spam_frame db now ip url).1]
      exact hr
    refine ⟨?_, rfl, (is_spam_frame db now ip url).1⟩
    unfold shorten
    rw [hurl]
    dsimp only
    rw [hcnone]
    dsimp only
    rw [hsp]
    dsimp only
    rw [hr1]
  · intro hnone a b
    have hn1 : findByUrl (is_spam_submission db now ip url).2 url = none := by
      rw [findByUrl_congr _ db url (is_spam_frame db now ip url).1]
      exact hnone
    unfold shorten
    rw [hurl]
    dsimp only
    rw [hcnone]
    dsimp only
    rw [hsp]
    dsimp only
    rw [hn1]
    dsimp only
    by_cases hcu : custom ≠ ""
    · rw [if_pos hcu]
      cases hins : insert_custom_url (is_spam_submission db now ip url).2 custom url now
          (now + EXPIRATION_HOURS * 3600) with
      | mk o dbx => cases o <;> simp
    · rw [if_neg hcu]
      cases hins : insert_unique_url rnd race (is_spam_submission db now ip url).2 url now
          (now + EXPIRATION_HOURS * 3600) with
      | mk o dbx => cases o <;> simp
  · intro c ea db2 hcreated now2 rnd2 race2 hspam2
    obtain ⟨hea, _, hfound, hcodes, hclen, hdb2⟩ :=
      shorten_created rnd race db now ip url "" c ea db2 hcreated
    have hfr := is_spam_frame db now ip url
    have hurls2 : db2.urls = db.urls ++
        [⟨db.nextId, c, url, now, now + EXPIRATION_HOURS * 3600, 0⟩] := by
      rw [hdb2]
      show (is_spam_submission db now ip url).2.urls ++
          [⟨(is_spam_submission db now ip url).2.nextId, c, url, now,
            now + EXPIRATION_HOURS * 3600, 0⟩] = _
      rw [hfr.1, hfr.2.2]
    have hsp2 : is_spam_submission db2 now2 ip url =
        (false, (is_spam_submission db2 now2 ip url).2) := by rw [← hspam2]
    have hfind2 : findByUrl (is_spam_submission db2 now2 ip url).2 url =
        some ⟨db.nextId, c, url, now, now + EXPIRATION_HOURS * 3600, 0⟩ := by
      rw [findByUrl_congr _ db2 url (is_spam_frame db2 now2 ip url).1]
      unfold findByUrl
      rw [hurls2]
      rw [find?_append_first_none _ _ _ (by
        intro x hx
        simp only [decide_eq_true_eq]
        exact (findByUrl_none_iff db url).mp hfound x hx)]
      rw [List.find?_cons_of_pos _ (by simp)]
    unfold shorten
    rw [hurl]
    dsimp only
    rw [if_pos rfl]
    dsimp only
    rw [hsp2]
    dsimp only
    rw [hfind2]
    rfl

/-- Witness for C1: with a (live) record present, a shorten call carrying a
valid custom code is answered with the stored code and the custom code is
ignored. -/
theorem C1_witness :
    shorten (fun _ => 0) (fun _ => false)
        ⟨[⟨1, "abc", "http://a", 0, 100, 0⟩], fun _ => none, fun _ => none, 2⟩
        50 "1.2.3.4" "http://a" "zzz" =
      (ShortenResult.idempotentHit "abc" "http://a",
       (is_spam_submission
          ⟨[⟨1, "abc", "http://a", 0, 100, 0⟩], fun _ => none, fun _ => none, 2⟩
          50 "1.2.3.4" "http://a").2) :=
  ((C1_idempotent (fun _ => 0) (fun _ => false)
      ⟨[⟨1, "abc", "http://a", 0, 100, 0⟩], fun _ => none, fun _ => none, 2⟩
      50 "1.2.3.4" "http://a" "zzz" (by decide) (Or.inr (by decide)) (by decide)).1
    ⟨1, "abc", "http://a", 0, 100, 0⟩ (by decide)).1

/-! ### Claim C3 -/

/-- Claim C3: the spam counter uses a 30-second window with threshold 3 and
flags exactly when the count within the current window exceeds 3; on the
shorten path a flagged submission is denied with SpamDetected (429) before
the idempotency lookup — the registry is not consulted and not changed — so
with 4 submissions of the identical URL from the same IP within 30s the 4th
is denied, both when the URL is already registered and when it is not. -/
theorem C3_spam_suppression (db : DB) (now : Int) (ip url : String) :
    SPAM_WINDOW_SECONDS = 30 ∧ SPAM_MAX_DUPLICATES = 3 ∧
    (db.spam (ip, url) = none →
      is_spam_submission db now ip url =
        (decide ((1 : Int) > SPAM_MAX_DUPLICATES),
         { db with spam := setTbl db.spam (ip, url) ⟨now, 1⟩ })) ∧
    (∀ w, db.spam (ip, url) = some w → now - w.windowStart ≥ SPAM_WINDOW_SECONDS →
      is_spam_submission db now ip url =
        (decide ((1 : Int) > SPAM_MAX_DUPLICATES),
         { db with spam := setTbl db.spam (ip, url) ⟨now, 1⟩ })) ∧
    (∀ w, db.spam (ip, url) = some w → ¬(now - w.windowStart ≥ SPAM_WINDOW_SECONDS) →
      is_spam_submission db now ip url =
        (decide (w.count + 1 > SPAM_MAX_DUPLICATES),
         { db with spam := setTbl db.spam (ip, url) ⟨w.windowStart, w.count + 1⟩ })) ∧
    (∀ (rnd : Nat → Nat) (race : Nat → Bool) (custom : String),
      validate_url url = none →
      (custom = "" ∨ validate_custom_code custom = none) →
      (is_spam_submission db now ip url).1 = true →
      shorten rnd race db now ip url custom =
        (ShortenResult.spamDetected, (is_spam_submission db now ip url).2) ∧
      shortenStatus ShortenResult.spamDetected = 429 ∧
      (is_spam_submission db now ip url).2.urls = db.urls) ∧
    (shortenCalls (fun _ => 0) (fun _ => false) "1.2.3.4" "http://a"
        ⟨[⟨1, "abc", "http://a", 0, 86400, 0⟩], fun _ => none, fun _ => none, 2⟩
        [0, 1, 2, 3]).1 =
      [ShortenResult.idempotentHit "abc" "http://a",
       ShortenResult.idempotentHit "abc" "http://a",
       ShortenResult.idempotentHit "abc" "http://a",
       ShortenResult.spamDetected] ∧
    (shortenCalls (fun _ => 0) (fun _ => false) "1.2.3.4" "http://a" emptyDB
        [0, 1, 2, 3]).1 =
      [ShortenResult.created "0000000" 86400,
       ShortenResult.idempotentHit "0000000" "http://a",
       ShortenResult.idempotentHit "0000000" "http://a",
       ShortenResult.spamDetected] := by
  refine ⟨rfl, rfl, ?_, ?_, ?_, ?_, by decide, by decide⟩
  · intro h
    unfold is_spam_submission
    rw [h]
  · intro w h hc
    unfold is_spam_submission
    rw [h]
    simp [hc]
  · intro w h hc
    unfold is_spam_submission
    rw [h]
    simp [hc]
  · intro rnd race custom hurl hcustom hspam
    have hcnone : (if custom = "" then none else validate_custom_code custom) = none := by
      by_cases hce : custom = ""
      · rw [if_pos hce]
      · rw [if_neg hce]
        rcases hcustom with rfl | hv
        · exact absurd rfl hce
        · exact hv
    have hsp : is_spam_submission db now ip url =
        (true, (is_spam_submission db now ip url).2) := by rw [← hspam]
    refine ⟨?_, rfl, (is_spam_frame db now ip url).1⟩
    unfold shorten
    rw [hurl]
    dsimp only
    rw [hcnone]
    dsimp only
    rw [hsp]

/-- Witness for C3: a submission whose window already counts 3 is denied with
SpamDetected even though its URL is already registered. -/
theorem C3_witness :
    shorten (fun _ => 0) (fun _ => false)
        ⟨[⟨1, "abc", "http://a", 0, 86400, 0⟩], fun _ => none,
         fun k => if k = ("1.2.3.4", "http://a") then some ⟨0, 3⟩ else none, 2⟩
        5 "1.2.3.4" "http://a" "" =
      (ShortenResult.spamDetected,
       (is_spam_submission
          ⟨[⟨1, "abc", "http://a", 0, 86400, 0⟩], fun _ => none,
           fun k => if k = ("1.2.3.4", "http://a") then some ⟨0, 3⟩ else none, 2⟩
          5 "1.2.3.4" "http://a").2) :=
  ((C3_spam_suppression
      ⟨[⟨1, "abc", "http://a", 0, 86400, 0⟩], fun _ => none,
       fun k => if k = ("1.2.3.4", "http://a") then some ⟨0, 3⟩ else none, 2⟩
      5 "1.2.3.4" "http://a").2.2.2.2.2.1 (fun _ => 0) (fun _ => false) ""
      (by decide) (Or.inl rfl) (by decide)).1

/-! ### Claim C5 -/

/-- Claim C5: after a successful shorten returning code `c` with HTTP 201,
every resolve of `c` performed before the stored expiry time returns a 302
redirect to exactly the submitted URL and increments the record's click count
by exactly 1 per successful resolve (shown for the first and a second
resolve: the count goes 0 to 1 to 2 and nothing else in the registry
changes). -/
theorem C5_roundtrip (rnd : Nat → Nat) (race : Nat → Bool) (db : DB) (now : Int)
    (ip url custom c : String) (ea : Int) (db2 : DB)
    (hid : ∀ r ∈ db.urls, r.id ≠ db.nextId)
    (h : shorten rnd race db now ip url custom = (ShortenResult.created c ea, db2)) :
    shortenStatus (ShortenResult.created c ea) = 201 ∧
    ∀ t, t < ea →
      (follow db2 t c).1 = FollowResult.redirect url ∧
      followStatus (FollowResult.redirect url) = 302 ∧
      (follow db2 t c).2.urls = db.urls ++ [⟨db.nextId, c, url, now, ea, 1⟩] ∧
      ∀ t2, t2 < ea →
        (follow (follow db2 t c).2 t2 c).1 = FollowResult.redirect url ∧
        (follow (follow db2 t c).2 t2 c).2.urls =
          db.urls ++ [⟨db.nextId, c, url, now, ea, 2⟩] := by
  obtain ⟨hea, _, hfound, hcodes, ⟨hlen0, hlen32⟩, hdb2⟩ :=
    shorten_created rnd race db now ip url custom c ea db2 h
  subst hea
  have hfr := is_spam_frame db now ip url
  have hurls2 : db2.urls = db.urls ++
      [⟨db.nextId, c, url, now, now + EXPIRATION_HOURS * 3600, 0⟩] := by
    rw [hdb2]
    show (is_spam_submission db now ip url).2.urls ++
        [⟨(is_spam_submission db now ip url).2.nextId, c, url, now,
          now + EXPIRATION_HOURS * 3600, 0⟩] = _
    rw [hfr.1, hfr.2.2]
  refine ⟨rfl, ?_⟩
  intro t ht
  have h1 := follow_live db2 t c db.urls
    ⟨db.nextId, c, url, now, now + EXPIRATION_HOURS * 3600, 0⟩
    hurls2 hcodes rfl (length_pos_ne_empty c hlen0) hlen32
    (fun r hr => hid r hr) (by dsimp only; omega)
  have h1fst : (follow db2 t c).1 = FollowResult.redirect url := by rw [h1]
  have h1urls : (follow db2 t c).2.urls =
      db.urls ++ [⟨db.nextId, c, url, now, now + EXPIRATION_HOURS * 3600, 1⟩] := by
    rw [h1]
  refine ⟨h1fst, rfl, h1urls, ?_⟩
  intro t2 ht2
  have h2 := follow_live (follow db2 t c).2 t2 c db.urls
    ⟨db.nextId, c, url, now, now + EXPIRATION_HOURS * 3600, 1⟩
    h1urls hcodes rfl (length_pos_ne_empty c hlen0) hlen32
    (fun r hr => hid r hr) (by dsimp only; omega)
  constructor
  · rw [h2]
  · rw [h2]

/-- Witness for C5: the concrete round trip: shorten an URL into a fresh
7-character code on an empty registry, then resolve it twice before expiry. -/
theorem C5_witness :
    (follow (shorten (fun _ => 0) (fun _ => false) emptyDB 0 "1.2.3.4" "http://a" "").2
        5 "0000000").1 = FollowResult.redirect "http://a" ∧
    (follow (shorten (fun _ => 0) (fun _ => false) emptyDB 0 "1.2.3.4" "http://a" "").2
        5 "0000000").2.urls =
      emptyDB.urls ++ [⟨emptyDB.nextId, "0000000", "http://a", 0, 86400, 1⟩] := by
  have hpair : shorten (fun _ => 0) (fun _ => false) emptyDB 0 "1.2.3.4" "http://a" "" =
      (ShortenResult.created "0000000" 86400,
       (shorten (fun _ => 0) (fun _ => false) emptyDB 0 "1.2.3.4" "http://a" "").2) := by
    have h1 : (shorten (fun _ => 0) (fun _ => false) emptyDB 0 "1.2.3.4" "http://a" "").1 =
        ShortenResult.created "0000000" 86400 := by decide
    calc shorten (fun _ => 0) (fun _ => false) emptyDB 0 "1.2.3.4" "http://a" "" =
        ((shorten (fun _ => 0) (fun _ => false) emptyDB 0 "1.2.3.4" "http://a" "").1,
         (shorten (fun _ => 0) (fun _ => false) emptyDB 0 "1.2.3.4" "http://a" "").2) := rfl
    _ = (ShortenResult.created "0000000" 86400,
         (shorten (fun _ => 0) (fun _ => false) emptyDB 0 "1.2.3.4" "http://a" "").2) := by
        rw [h1]
  have h := C5_roundtrip (fun _ => 0) (fun _ => false) emptyDB 0 "1.2.3.4" "http://a" ""
    "0000000" 86400
    (shorten (fun _ => 0) (fun _ => false) emptyDB 0 "1.2.3.4" "http://a" "").2
    (fun r hr => absurd hr (List.not_mem_nil r)) hpair
  exact ⟨(h.2 5 (by decide)).1, (h.2 5 (by decide)).2.2.1⟩

end UrlShortener
